import Mathlib

/-!
Verification of the widl-grpc proto3 emitter (`src/index.ts`).

The emitter is a visitor (`GRPCVisitor`) over an already-parsed schema AST.
We shallowly embed the AST node shapes the emitter reads, the scalar type
table, the pure `typeSignature` resolver, and each visit method as a pure
function producing the text it writes.  A throwing TypeScript statement is
modelled by an `Option String` error component: every emission function
returns the text written before the throw together with the error, so that
partial output on failure is observable (the TS writer keeps text already
written when an exception propagates).

External collaborators (`pascalCase`, `snakeCase`, `formatComment`,
`isVoid`, `shouldIncludeHandler`) come from `@wapc/widl-codegen` and are not
part of this repository; they are abstracted as a `Helpers` record of
opaque-to-us functions over which theorems quantify.  The traversal driver
(`BaseVisitor`) is likewise external; the document-level driver below
follows the fixed visitation order the specification describes
(syntax, package, services, types, enums, unions, synthesized requests),
re-running the message-emission logic on each accumulated request type at
the end (`visitDocumentAfter`).
-/

namespace WidlGrpc

/-- The `Type` AST values the resolver switches on: the four variants it
handles (`Named`, `ListType`, `MapType`, `Optional`) plus `other`, standing
for any other AST node kind cast to `Type`, which the resolver's `default`
branch rejects.  `other` carries the printed kind string. -/
inductive WType where
  | named (name : String)
  | list (elemType : WType)
  | map (keyType : WType) (valueType : WType)
  | optional (innerType : WType)
  | other (kind : String)
deriving DecidableEq

/-- An annotation as the emitter consumes it: `field.annotation("fieldnum")`
finds it by name and `convert<FieldNumDirective>()` reads its `value`. -/
structure AnnotationDef where
  name : String
  value : Int
deriving DecidableEq

/-- A `ParameterDefinition`: the components `convertOperationToType` copies
into a `FieldDefinition` (location is not observable in output). -/
structure ParameterDefinition where
  name : String
  description : Option String
  type : WType
  dflt : Option String
  annotations : List AnnotationDef
deriving DecidableEq

/-- A `FieldDefinition` as read by `visitTypeField` and built by
`convertOperationToType`. -/
structure FieldDefinition where
  name : String
  description : Option String
  type : WType
  dflt : Option String
  annotations : List AnnotationDef
deriving DecidableEq

/-- `field.annotation(name)`: find the annotation with the given name. -/
def FieldDefinition.annotationFor (f : FieldDefinition) (n : String) : Option AnnotationDef :=
  f.annotations.find? (fun a => a.name == n)

/-- A `TypeDefinition` (message): name, description, interfaces,
annotations, ordered fields. -/
structure TypeDefinition where
  name : String
  description : Option String
  interfaces : List String
  annotations : List AnnotationDef
  fields : List FieldDefinition
deriving DecidableEq

/-- An `OperationDefinition`: parameters in declaration order, return type,
annotations and the `unary` flag. -/
structure OperationDefinition where
  name : String
  description : Option String
  parameters : List ParameterDefinition
  type : WType
  annotations : List AnnotationDef
  unary : Bool
deriving DecidableEq

/-- A `Role` (service): name, description, operations in declaration
order. -/
structure Role where
  name : String
  description : Option String
  operations : List OperationDefinition
deriving DecidableEq

structure EnumValue where
  name : String
  description : Option String
  index : Int
deriving DecidableEq

structure EnumDefinition where
  name : String
  description : Option String
  values : List EnumValue
deriving DecidableEq

structure UnionDefinition where
  name : String
  description : Option String
  types : List WType
deriving DecidableEq

structure NamespaceDefinition where
  name : String
deriving DecidableEq

/-- The document as the fixed-order traversal consumes it: one namespace
and the per-section ordered lists. -/
structure Document where
  ns : NamespaceDefinition
  roles : List Role
  types : List TypeDefinition
  enums : List EnumDefinition
  unions : List UnionDefinition
deriving DecidableEq

/-- The collaborator policies and naming helpers injected from
`@wapc/widl-codegen`; theorems quantify over them. -/
structure Helpers where
  shouldIncludeHandler : Role → Bool
  pascalCase : String → String
  snakeCase : String → String
  formatComment : String → Option String → String
  isVoid : WType → Bool

/-- The fixed scalar-to-proto table (`scalarTypeMap`), verbatim from the
source, as an association list with case-sensitive string keys. -/
def scalarTypeMap : List (String × String) :=
  [ ("i8", "int32"),
    ("i16", "int32"),
    ("i32", "int32"),
    ("i64", "int64"),
    ("u8", "uint32"),
    ("u16", "uint32"),
    ("u32", "uint32"),
    ("u64", "uint64"),
    ("f32", "float"),
    ("f64", "double"),
    ("string", "string"),
    ("bytes", "bytes"),
    ("boolean", "bool"),
    ("date", "google.protobuf.Timestamp"),
    ("datetime", "google.protobuf.Timestamp"),
    ("raw", "google.protobuf.Any") ]

/-- `typeSignature`: the pure type resolver.  `Named` looks the name up in
the scalar table and falls back to the name itself (the table has no empty
values, so `getD` matches the TS `||` fallback); `ListType`, `MapType` and
`Optional` recurse; any other kind throws `unexpected kind: <kind>`. -/
def typeSignature : WType → Except String String
  | .named n => .ok ((scalarTypeMap.lookup n).getD n)
  | .list t => (typeSignature t).map (fun s => "repeated " ++ s)
  | .map k v => do
      let ks ← typeSignature k
      let vs ← typeSignature v
      pure ("map<" ++ ks ++ ", " ++ vs ++ ">")
  | .optional t => (typeSignature t).map (fun s => "optional " ++ s)
  | .other kind => .error ("unexpected kind: " ++ kind)

/-- `(t as Named).name.value` as `visitUnion` performs it on a member type:
defined only for `Named`; on any other variant the TS access throws a
`TypeError` (modelled as `none` here and as an error where it is used). -/
def WType.nameValue : WType → Option String
  | .named n => some n
  | _ => none

/-- Sequencing of two emission results: if the first aborted, its partial
text and error stand; otherwise the texts concatenate and the second
result's error stands. -/
def eseq : String × Option String → String × Option String → String × Option String
  | (s, some e), _ => (s, some e)
  | (s, none), (t, e) => (s ++ t, e)

/-- `convertOperationToType`: builds the synthesized request
`TypeDefinition` for a non-unary operation, copying each parameter into a
`FieldDefinition` verbatim. -/
def convertOperationToType (H : Helpers) (o : OperationDefinition) : TypeDefinition :=
  { name := H.pascalCase o.name ++ "Request"
    description := some ("Request for the " ++ H.pascalCase o.name ++ " operation.")
    interfaces := []
    annotations := o.annotations
    fields := o.parameters.map (fun param =>
      FieldDefinition.mk param.name param.description param.type param.dflt param.annotations) }

/-- `visitOperationBefore`: gated on the handler-inclusion predicate; emits
the operation's comment and `rpc` line, and for a non-unary operation
pushes the synthesized request type.  Returns (text written, request types
pushed, error).  A unary operation with no parameter models the TS
`TypeError` on `parameters[0].type`; a failing `typeSignature` call aborts
after the text already written. -/
def visitOperationBefore (H : Helpers) (r : Role) (o : OperationDefinition) :
    String × List TypeDefinition × Option String :=
  if H.shouldIncludeHandler r then
    let head := H.formatComment "  // " o.description ++ "  rpc " ++ H.pascalCase o.name ++ "("
    let reqPart : String × List TypeDefinition × Option String :=
      if o.unary then
        match o.parameters.head? with
        | none => ("", [], some "TypeError: cannot read properties of undefined")
        | some p =>
          match typeSignature p.type with
          | .error e => ("", [], some e)
          | .ok s => (s, [], none)
      else
        (H.pascalCase o.name ++ "Request", [convertOperationToType H o], none)
    match reqPart with
    | (_, reqs, some e) => (head, reqs, some e)
    | (reqSig, reqs, none) =>
      let retPart : String × Option String :=
        if H.isVoid o.type then ("Empty", none)
        else
          match typeSignature o.type with
          | .error e => ("", some e)
          | .ok s => (s, none)
      match retPart with
      | (_, some e) => (head ++ reqSig ++ ") returns (", reqs, some e)
      | (retSig, none) =>
        (head ++ reqSig ++ ") returns (" ++ retSig ++ ");\n", reqs, none)
  else ("", [], none)

/-- The operations of a role in declaration order, threading the
accumulated request types and aborting on the first error. -/
def emitOperations (H : Helpers) (r : Role) :
    List OperationDefinition → String × List TypeDefinition × Option String
  | [] => ("", [], none)
  | o :: rest =>
    match visitOperationBefore H r o with
    | (s, reqs, some e) => (s, reqs, some e)
    | (s, reqs, none) =>
      let tail := emitOperations H r rest
      (s ++ tail.1, reqs ++ tail.2.1, tail.2.2)

/-- One role: `visitRoleBefore` (gated comment + `service` header), its
operations, `visitRoleAfter` (gated closing brace).  The per-operation gate
is checked inside `visitOperationBefore` as in the source. -/
def emitRole (H : Helpers) (r : Role) : String × List TypeDefinition × Option String :=
  let before :=
    if H.shouldIncludeHandler r then
      H.formatComment "// " r.description ++ "service " ++ r.name ++ " \x7b\n"
    else ""
  match emitOperations H r r.operations with
  | (s, reqs, some e) => (before ++ s, reqs, some e)
  | (s, reqs, none) =>
    let after := if H.shouldIncludeHandler r then "\x7d\n\n" else ""
    (before ++ s ++ after, reqs, none)

/-- All roles in declaration order. -/
def emitRoles (H : Helpers) : List Role → String × List TypeDefinition × Option String
  | [] => ("", [], none)
  | r :: rest =>
    match emitRole H r with
    | (s, reqs, some e) => (s, reqs, some e)
    | (s, reqs, none) =>
      let tail := emitRoles H rest
      (s ++ tail.1, reqs ++ tail.2.1, tail.2.2)

/-- `visitTypeField`: fails with `<Type>.<field> requires a @fieldnum` when
the annotation is missing (before writing anything); otherwise writes the
field's comment and then its line, whose type signature may itself fail
after the comment was written. -/
def visitTypeField (H : Helpers) (t : TypeDefinition) (f : FieldDefinition) :
    String × Option String :=
  match f.annotationFor "fieldnum" with
  | none => ("", some (t.name ++ "." ++ f.name ++ " requires a @fieldnum"))
  | some a =>
    let comment := H.formatComment "  // " f.description
    match typeSignature f.type with
    | .error e => (comment, some e)
    | .ok sig =>
      (comment ++ "  " ++ sig ++ " " ++ H.snakeCase f.name ++ " = "
        ++ toString a.value ++ ";\n", none)

/-- The fields of a message in declaration order, aborting on the first
failing field. -/
def emitFields (H : Helpers) (t : TypeDefinition) :
    List FieldDefinition → String × Option String
  | [] => ("", none)
  | f :: rest => eseq (visitTypeField H t f) (emitFields H t rest)

/-- One message: `visitTypeBefore` (comment + `message` header), its
fields, `visitTypeAfter` (closing brace) — the closing text is not reached
when a field fails. -/
def emitType (H : Helpers) (t : TypeDefinition) : String × Option String :=
  eseq (H.formatComment "// " t.description ++ "message " ++ H.pascalCase t.name
          ++ " \x7b\n", none)
    (eseq (emitFields H t t.fields) ("\x7d\n\n", none))

/-- A list of messages in order. -/
def emitTypes (H : Helpers) : List TypeDefinition → String × Option String
  | [] => ("", none)
  | t :: rest => eseq (emitType H t) (emitTypes H rest)

/-- `visitEnumValue`: one enum value line, index taken verbatim. -/
def visitEnumValue (H : Helpers) (ev : EnumValue) : String :=
  H.formatComment "  // " ev.description ++ "  " ++ (H.snakeCase ev.name).toUpper
    ++ " = " ++ toString ev.index ++ ";\n"

/-- One enum block; enum emission cannot fail. -/
def emitEnum (H : Helpers) (e : EnumDefinition) : String :=
  H.formatComment "// " e.description ++ "enum " ++ H.pascalCase e.name ++ " \x7b\n"
    ++ String.join (e.values.map (visitEnumValue H)) ++ "\x7d\n\n"

def emitEnums (H : Helpers) (es : List EnumDefinition) : String :=
  String.join (es.map (emitEnum H))

/-- The member lines of a union's oneof group: member `i` (1-based) yields
`    <typeSignature t> <snakeCase (t.name.value)>_value = <i>;`.  The TS
template evaluates `typeSignature t` first, then accesses `t.name.value`,
which throws on a non-`Named` member. -/
def emitUnionMembers (H : Helpers) : List WType → Nat → String × Option String
  | [], _ => ("", none)
  | t :: rest, i =>
    match typeSignature t with
    | .error e => ("", some e)
    | .ok sig =>
      match t.nameValue with
      | none => ("", some "TypeError: cannot read properties of undefined")
      | some n =>
        eseq ("    " ++ sig ++ " " ++ H.snakeCase n ++ "_value = "
                ++ toString (i + 1) ++ ";\n", none)
          (emitUnionMembers H rest (i + 1))

/-- `visitUnion`: comment, `message <PascalCase(name)>` wrapping one
`oneof oneof` group of member lines numbered starting at 1. -/
def visitUnion (H : Helpers) (u : UnionDefinition) : String × Option String :=
  eseq (H.formatComment "// " u.description ++ "message " ++ H.pascalCase u.name
          ++ " \x7b\n" ++ "  oneof oneof \x7b\n", none)
    (match emitUnionMembers H u.types 0 with
     | (s, some e) => (s, some e)
     | (s, none) => (s ++ "  \x7d\n" ++ "\x7d\n\n", none))

def emitUnions (H : Helpers) : List UnionDefinition → String × Option String
  | [] => ("", none)
  | u :: rest => eseq (visitUnion H u) (emitUnions H rest)

/-- The fixed document header: `visitDocumentBefore` then
`visitNamespace`. -/
def docHeader (d : Document) : String :=
  "syntax = \"proto3\";\n\n" ++ ("package " ++ d.ns.name ++ ";\n\n")

/-- The whole document in the driver's fixed section order; after the
primary sections, `visitDocumentAfter` re-runs message emission once per
accumulated request type, in the order operations were visited.  An error
anywhere keeps the text written up to it and aborts the rest. -/
def emitDocument (H : Helpers) (d : Document) : String × Option String :=
  match emitRoles H d.roles with
  | (s, _, some e) => (docHeader d ++ s, some e)
  | (s, reqs, none) =>
    eseq (docHeader d ++ s, none)
      (eseq (emitTypes H d.types)
        (eseq (emitEnums H d.enums, none)
          (eseq (emitUnions H d.unions)
            (emitTypes H reqs))))

end WidlGrpc

namespace WidlGrpc

/-- A name is a key of the scalar table exactly when `lookup` finds it;
names with no key resolve to themselves. -/
lemma lookup_none_of_no_key (n : String) (l : List (String × String))
    (h : n ∈ l.map Prod.fst → False) : l.lookup n = none := by
  simp only [List.lookup_eq_none_iff]
  intro p hp
  simp only [bne_iff_ne, ne_eq]
  intro hna
  exact h (List.mem_map.mpr ⟨p, hp, hna.symm⟩)

/-- Claim C3: `Resolve` maps each scalar name to its fixed table entry
(i8/i16/i32 to int32, i64 to int64, u8/u16/u32 to uint32, u64 to uint64,
f32 to float, f64 to double, string to string, bytes to bytes, boolean to
bool, date and datetime to google.protobuf.Timestamp, raw to
google.protobuf.Any), and every name outside the table passes through
unchanged, with no PascalCase applied. -/
theorem scalar_table_resolution :
    (typeSignature (.named "i8") = .ok "int32"
      ∧ typeSignature (.named "i16") = .ok "int32"
      ∧ typeSignature (.named "i32") = .ok "int32"
      ∧ typeSignature (.named "i64") = .ok "int64"
      ∧ typeSignature (.named "u8") = .ok "uint32"
      ∧ typeSignature (.named "u16") = .ok "uint32"
      ∧ typeSignature (.named "u32") = .ok "uint32"
      ∧ typeSignature (.named "u64") = .ok "uint64"
      ∧ typeSignature (.named "f32") = .ok "float"
      ∧ typeSignature (.named "f64") = .ok "double"
      ∧ typeSignature (.named "string") = .ok "string"
      ∧ typeSignature (.named "bytes") = .ok "bytes"
      ∧ typeSignature (.named "boolean") = .ok "bool"
      ∧ typeSignature (.named "date") = .ok "google.protobuf.Timestamp"
      ∧ typeSignature (.named "datetime") = .ok "google.protobuf.Timestamp"
      ∧ typeSignature (.named "raw") = .ok "google.protobuf.Any")
    ∧ ∀ n : String, (n ∈ scalarTypeMap.map Prod.fst → False) →
        typeSignature (.named n) = .ok n := by
  refine ⟨⟨rfl, rfl, rfl, rfl, rfl, rfl, rfl, rfl, rfl, rfl, rfl, rfl, rfl, rfl, rfl, rfl⟩, ?_⟩
  intro n hn
  simp [typeSignature, lookup_none_of_no_key n scalarTypeMap hn]

/-- Witness for C3: the name `Address` is outside the scalar table and
resolves to itself. -/
theorem scalar_table_resolution_witness :
    typeSignature (.named "Address") = .ok "Address" :=
  scalar_table_resolution.2 "Address" (by decide)

/-- Claim C4: `Resolve` on composite types prepends `repeated ` for lists
and `optional ` for optionals, renders maps as `map<K, V>`, and nesting
composes one layer per constructor, e.g. an optional list resolves to
`optional repeated ` followed by the element's resolution. -/
theorem resolver_composition (t k v : WType) (s ks vs : String)
    (ht : typeSignature t = .ok s)
    (hk : typeSignature k = .ok ks)
    (hv : typeSignature v = .ok vs) :
    typeSignature (.list t) = .ok ("repeated " ++ s)
    ∧ typeSignature (.optional t) = .ok ("optional " ++ s)
    ∧ typeSignature (.map k v) = .ok ("map<" ++ ks ++ ", " ++ vs ++ ">")
    ∧ typeSignature (.optional (.list t)) = .ok ("optional repeated " ++ s) := by
  refine ⟨?_, ?_, ?_, ?_⟩
  · simp [typeSignature, ht, Except.map]
  · simp [typeSignature, ht, Except.map]
  · simp [typeSignature, hk, hv]
    rfl
  · simp [typeSignature, ht, Except.map, ← String.append_assoc]

/-- Witness for C4 at `t = i64`, `k = string`, `v = boolean`. -/
theorem resolver_composition_witness :
    typeSignature (.list (.named "i64")) = .ok ("repeated " ++ "int64")
    ∧ typeSignature (.optional (.named "i64")) = .ok ("optional " ++ "int64")
    ∧ typeSignature (.map (.named "string") (.named "boolean"))
        = .ok ("map<" ++ "string" ++ ", " ++ "bool" ++ ">")
    ∧ typeSignature (.optional (.list (.named "i64"))) = .ok ("optional repeated " ++ "int64") :=
  resolver_composition (.named "i64") (.named "string") (.named "boolean")
    "int64" "string" "bool" rfl rfl rfl

/-- `true` exactly when the value is built from the four handled
constructors only (`named`, `list`, `map`, `optional`), with no `other`
anywhere inside. -/
def WType.fromHandledVariants : WType → Bool
  | .named _ => true
  | .list t => t.fromHandledVariants
  | .map k v => k.fromHandledVariants && v.fromHandledVariants
  | .optional t => t.fromHandledVariants
  | .other _ => false

/-- Claim C9: the resolver is total over values built from the four
handled variants — it never fails on them — and on any other variant it
fails with `unexpected kind: <kind>`, with no silent fallback. -/
theorem resolver_totality_and_default_error :
    (∀ t : WType, t.fromHandledVariants = true → ∃ s, typeSignature t = .ok s)
    ∧ ∀ kind : String,
        typeSignature (.other kind) = .error ("unexpected kind: " ++ kind) := by
  constructor
  · intro t
    induction t with
    | named n => exact fun _ => ⟨_, rfl⟩
    | list t ih =>
      intro h
      obtain ⟨s, hs⟩ := ih (by simpa [WType.fromHandledVariants] using h)
      exact ⟨"repeated " ++ s, by simp [typeSignature, hs, Except.map]⟩
    | map k v ihk ihv =>
      intro h
      simp only [WType.fromHandledVariants, Bool.and_eq_true] at h
      obtain ⟨ks, hks⟩ := ihk h.1
      obtain ⟨vs, hvs⟩ := ihv h.2
      refine ⟨"map<" ++ ks ++ ", " ++ vs ++ ">", ?_⟩
      simp [typeSignature, hks, hvs]
      rfl
    | optional t ih =>
      intro h
      obtain ⟨s, hs⟩ := ih (by simpa [WType.fromHandledVariants] using h)
      exact ⟨"optional " ++ s, by simp [typeSignature, hs, Except.map]⟩
    | other kind => intro h; simp [WType.fromHandledVariants] at h
  · intro kind
    rfl

/-- Witness for C9: a nested handled value resolves; the `other` branch
fails at a concrete kind. -/
theorem resolver_totality_and_default_error_witness :
    (∃ s, typeSignature (.map (.named "string") (.optional (.named "Book"))) = .ok s)
    ∧ typeSignature (.other "Directive") = .error ("unexpected kind: " ++ "Directive") :=
  ⟨resolver_totality_and_default_error.1 (.map (.named "string") (.optional (.named "Book")))
      (by decide),
    resolver_totality_and_default_error.2 "Directive"⟩

end WidlGrpc

namespace WidlGrpc

/-- Concatenation of a list of emitted lines. -/
def concatLines : List String → String
  | [] => ""
  | s :: rest => s ++ concatLines rest

/-- The claimed shape of one oneof member line: the member's resolved type
signature, the snake_cased member type name suffixed `_value`, and the
1-based member number. -/
def unionLineSpec (H : Helpers) (n : String) (num : Nat) : String :=
  "    " ++ ((scalarTypeMap.lookup n).getD n) ++ " " ++ H.snakeCase n ++ "_value = "
    ++ toString num ++ ";\n"

/-- The claimed member lines for named members `ns`, numbered from
`i + 1`. -/
def oneofLines (H : Helpers) : List String → Nat → List String
  | [], _ => []
  | n :: rest, i => unionLineSpec H n (i + 1) :: oneofLines H rest (i + 1)

lemma oneofLines_length (H : Helpers) :
    ∀ (ns : List String) (i : Nat), (oneofLines H ns i).length = ns.length
  | [], _ => rfl
  | _ :: rest, i => by simp [oneofLines, oneofLines_length H rest (i + 1)]

lemma oneofLines_getD (H : Helpers) :
    ∀ (ns : List String) (i j : Nat), j < ns.length →
      (oneofLines H ns i).getD j "" = unionLineSpec H (ns.getD j "") (i + j + 1)
  | [], _, j, hj => by simp at hj
  | n :: rest, i, 0, _ => by simp [oneofLines]
  | n :: rest, i, j + 1, hj => by
    have := oneofLines_getD H rest (i + 1) j (by simpa using hj)
    simpa [oneofLines, Nat.add_assoc, Nat.add_comm, Nat.add_left_comm] using this

lemma emitUnionMembers_named (H : Helpers) :
    ∀ (ns : List String) (i : Nat),
      emitUnionMembers H (ns.map WType.named) i = (concatLines (oneofLines H ns i), none)
  | [], _ => rfl
  | n :: rest, i => by
    simp only [List.map, emitUnionMembers, typeSignature, WType.nameValue, oneofLines,
      concatLines, emitUnionMembers_named H rest (i + 1), eseq, unionLineSpec]

/-- Claim C5: a union whose members are the named types `ns` emits exactly
one message named `PascalCase(name)` wrapping one oneof group named
`oneof`, one line per member in declaration order of the form
`<TypeSignature> <snake_case(typeName)>_value = <i>;`, with the 1-based
numbers exactly 1..N. -/
theorem union_oneof_emission (H : Helpers) (u : UnionDefinition) (ns : List String)
    (hmembers : u.types = ns.map WType.named) :
    visitUnion H u =
      (H.formatComment "// " u.description ++ "message " ++ H.pascalCase u.name
        ++ " \x7b\n" ++ "  oneof oneof \x7b\n"
        ++ concatLines (oneofLines H ns 0) ++ "  \x7d\n" ++ "\x7d\n\n", none)
    ∧ (oneofLines H ns 0).length = ns.length
    ∧ ∀ j : Nat, j < ns.length →
        (oneofLines H ns 0).getD j "" = unionLineSpec H (ns.getD j "") (j + 1) := by
  refine ⟨?_, oneofLines_length H ns 0, ?_⟩
  · simp only [visitUnion, hmembers, emitUnionMembers_named H ns 0, eseq,
      String.append_assoc]
  · intro j hj
    simpa using oneofLines_getD H ns 0 j hj

/-- Concrete helper instances for witnesses: include every role, identity
naming, empty comments, `void` detection by name. -/
def sampleHelpers : Helpers :=
  { shouldIncludeHandler := fun _ => true
    pascalCase := fun s => s
    snakeCase := fun s => s
    formatComment := fun _ _ => ""
    isVoid := fun t => t == WType.named "void" }

/-- Witness for C5: a two-member union of named types. -/
theorem union_oneof_emission_witness :
    visitUnion sampleHelpers (UnionDefinition.mk "Value" none
        [WType.named "string", WType.named "i64"]) =
      (sampleHelpers.formatComment "// " none ++ "message "
        ++ sampleHelpers.pascalCase "Value" ++ " \x7b\n" ++ "  oneof oneof \x7b\n"
        ++ concatLines (oneofLines sampleHelpers ["string", "i64"] 0)
        ++ "  \x7d\n" ++ "\x7d\n\n", none)
    ∧ (oneofLines sampleHelpers ["string", "i64"] 0).length = 2
    ∧ ∀ j : Nat, j < 2 →
        (oneofLines sampleHelpers ["string", "i64"] 0).getD j ""
          = unionLineSpec sampleHelpers (["string", "i64"].getD j "") (j + 1) := by
  have h := union_oneof_emission sampleHelpers
    (UnionDefinition.mk "Value" none [WType.named "string", WType.named "i64"])
    ["string", "i64"] rfl
  exact ⟨h.1, h.2.1, h.2.2⟩

lemma emitUnionMembers_name_undefined (H : Helpers) (m : WType) (s : String)
    (hname : m.nameValue = none) (hsig : typeSignature m = .ok s) :
    ∀ (pre : List String) (rest : List WType) (i : Nat),
      (emitUnionMembers H (pre.map WType.named ++ m :: rest) i).2
        = some "TypeError: cannot read properties of undefined"
  | [], rest, i => by
    simp only [List.map, List.nil_append, emitUnionMembers, hsig, hname]
  | n :: pre, rest, i => by
    simp only [List.map, List.cons_append, List.append_eq, emitUnionMembers, typeSignature,
      WType.nameValue, eseq, emitUnionMembers_name_undefined H m s hname hsig pre rest (i + 1)]

/-- Claim C10: union emission is only defined when every member is a
`Named` reference: a member of any other variant has no member-name
derivation — the emitter fails with a TypeError there — even when the
member's type signature itself resolves. -/
theorem union_member_name_undefined (H : Helpers) (u : UnionDefinition)
    (pre : List String) (m : WType) (rest : List WType) (s : String)
    (hmembers : u.types = pre.map WType.named ++ m :: rest)
    (hname : m.nameValue = none)
    (hsig : typeSignature m = .ok s) :
    (visitUnion H u).2 = some "TypeError: cannot read properties of undefined" := by
  have h := emitUnionMembers_name_undefined H m s hname hsig pre rest 0
  simp only [visitUnion, hmembers, eseq]
  rcases hu : emitUnionMembers H (pre.map WType.named ++ m :: rest) 0 with ⟨t, e⟩
  rw [hu] at h
  simp at h
  subst h
  simp [eseq]

/-- Witness for C10: a union whose second member is `List(string)` — its
signature resolves to `repeated string`, but the member-name access is
undefined and emission fails. -/
theorem union_member_name_undefined_witness :
    (visitUnion sampleHelpers (UnionDefinition.mk "Value" none
        [WType.named "i32", WType.list (WType.named "string")])).2
      = some "TypeError: cannot read properties of undefined" :=
  union_member_name_undefined sampleHelpers
    (UnionDefinition.mk "Value" none [WType.named "i32", WType.list (WType.named "string")])
    ["i32"] (WType.list (WType.named "string")) [] "repeated string" rfl rfl rfl

end WidlGrpc

namespace WidlGrpc

lemma emitOperations_excluded (H : Helpers) (r : Role)
    (hex : H.shouldIncludeHandler r = false) :
    ∀ ops : List OperationDefinition, emitOperations H r ops = ("", [], none)
  | [] => rfl
  | o :: rest => by
    simp [emitOperations, visitOperationBefore, hex, emitOperations_excluded H r hex rest]

/-- Claim C6: a role rejected by the handler-inclusion predicate emits
nothing at all — no comment, no service block, no rpc lines — accumulates
no synthesized request types, and removing it from the document's role
list leaves the whole emission unchanged. -/
theorem excluded_role_emits_nothing (H : Helpers) (r : Role)
    (hex : H.shouldIncludeHandler r = false) :
    emitRole H r = ("", [], none)
    ∧ (∀ pre post : List Role, emitRoles H (pre ++ r :: post) = emitRoles H (pre ++ post))
    ∧ ∀ (d : Document) (pre post : List Role), d.roles = pre ++ r :: post →
        emitDocument H d
          = emitDocument H (Document.mk d.ns (pre ++ post) d.types d.enums d.unions) := by
  have hrole : emitRole H r = ("", [], none) := by
    simp [emitRole, hex, emitOperations_excluded H r hex]
  have hroles : ∀ pre post : List Role,
      emitRoles H (pre ++ r :: post) = emitRoles H (pre ++ post) := by
    intro pre post
    induction pre with
    | nil =>
      simp only [List.nil_append, emitRoles, hrole]
      rcases ht : emitRoles H post with ⟨s, reqs, e⟩
      cases e <;> simp
    | cons r0 pre ih =>
      simp only [List.cons_append, emitRoles]
      rcases h0 : emitRole H r0 with ⟨s, reqs, e⟩
      cases e <;> simp [ih]
  refine ⟨hrole, hroles, ?_⟩
  intro d pre post hd
  simp only [emitDocument, docHeader, hd, hroles pre post]

/-- Witness for C6: a role named `Internal` with one operation, excluded
by a predicate rejecting that name, emits nothing and leaves a document
unchanged when removed. -/
def excludingHelpers : Helpers :=
  { shouldIncludeHandler := fun r => !(r.name == "Internal")
    pascalCase := fun s => s
    snakeCase := fun s => s
    formatComment := fun _ _ => ""
    isVoid := fun t => t == WType.named "void" }

def internalRole : Role :=
  Role.mk "Internal" none
    [OperationDefinition.mk "purge" none
      [ParameterDefinition.mk "key" none (WType.named "string") none []]
      (WType.named "void") [] false]

theorem excluded_role_emits_nothing_witness :
    emitRole excludingHelpers internalRole = ("", [], none)
    ∧ emitRoles excludingHelpers [internalRole] = emitRoles excludingHelpers []
    ∧ emitDocument excludingHelpers
        (Document.mk (NamespaceDefinition.mk "pkg.demo") [internalRole] [] [] [])
        = emitDocument excludingHelpers
            (Document.mk (NamespaceDefinition.mk "pkg.demo") [] [] [] []) := by
  have h := excluded_role_emits_nothing excludingHelpers internalRole rfl
  exact ⟨h.1, h.2.1 [] [], h.2.2
    (Document.mk (NamespaceDefinition.mk "pkg.demo") [internalRole] [] [] []) [] [] rfl⟩

lemma emitFields_fails_of_missing_fieldnum (H : Helpers) (t : TypeDefinition)
    (f : FieldDefinition) (hf : f.annotationFor "fieldnum" = none) :
    ∀ fs : List FieldDefinition, f ∈ fs → ((emitFields H t fs).2).isSome = true
  | [], h => by simp at h
  | g :: rest, h => by
    rcases List.mem_cons.mp h with hfg | hmem
    · subst hfg
      simp [emitFields, visitTypeField, hf, eseq]
    · rcases hv : visitTypeField H t g with ⟨s, e⟩
      cases e with
      | none =>
        have ih := emitFields_fails_of_missing_fieldnum H t f hf rest hmem
        rcases he : emitFields H t rest with ⟨s2, e2⟩
        rw [he] at ih
        simp only [emitFields, hv, he, eseq]
        simpa using ih
      | some err => simp [emitFields, hv, eseq]

/-- Claim C7: a field lacking the `fieldnum` annotation fails fatally at
that field — nothing of the field's line is written, the message's closing
text is never produced, and no substitute number is used — while a field
carrying the annotation has its value used verbatim as the wire number. -/
theorem fieldnum_required (H : Helpers) (t : TypeDefinition) (f : FieldDefinition)
    (a : AnnotationDef) (sig : String) :
    (f.annotationFor "fieldnum" = none →
      visitTypeField H t f = ("", some (t.name ++ "." ++ f.name ++ " requires a @fieldnum")))
    ∧ (f.annotationFor "fieldnum" = none → f ∈ t.fields →
      ((emitFields H t t.fields).2).isSome = true
      ∧ emitType H t
          = (H.formatComment "// " t.description ++ "message " ++ H.pascalCase t.name
              ++ " \x7b\n" ++ (emitFields H t t.fields).1, (emitFields H t t.fields).2))
    ∧ (f.annotationFor "fieldnum" = some a → typeSignature f.type = .ok sig →
      visitTypeField H t f
        = (H.formatComment "  // " f.description ++ "  " ++ sig ++ " "
            ++ H.snakeCase f.name ++ " = " ++ toString a.value ++ ";\n", none)) := by
  refine ⟨?_, ?_, ?_⟩
  · intro hf
    simp [visitTypeField, hf]
  · intro hf hmem
    have hsome := emitFields_fails_of_missing_fieldnum H t f hf t.fields hmem
    refine ⟨hsome, ?_⟩
    rcases he : emitFields H t t.fields with ⟨s2, e2⟩
    rw [he] at hsome
    cases e2 with
    | none => simp at hsome
    | some err => simp [emitType, he, eseq]
  · intro ha hsig
    simp [visitTypeField, ha, hsig]

def fieldWithNum : FieldDefinition :=
  FieldDefinition.mk "b" none (WType.named "i64") none [AnnotationDef.mk "fieldnum" 2]

def fieldNoNum : FieldDefinition :=
  FieldDefinition.mk "a" none (WType.named "i32") none []

def typeMissingNum : TypeDefinition :=
  TypeDefinition.mk "Pair" none [] [] [fieldWithNum, fieldNoNum]

/-- Witness for C7: in `Pair`, field `a` has no `fieldnum` and aborts the
message; field `b` carries `fieldnum 2`, used verbatim. -/
theorem fieldnum_required_witness :
    visitTypeField sampleHelpers typeMissingNum fieldNoNum
      = ("", some (typeMissingNum.name ++ "." ++ fieldNoNum.name ++ " requires a @fieldnum"))
    ∧ ((emitFields sampleHelpers typeMissingNum typeMissingNum.fields).2).isSome = true
    ∧ visitTypeField sampleHelpers typeMissingNum fieldWithNum
      = (sampleHelpers.formatComment "  // " none ++ "  " ++ "int64" ++ " "
          ++ sampleHelpers.snakeCase "b" ++ " = " ++ toString (2 : Int) ++ ";\n", none) :=
  ⟨(fieldnum_required sampleHelpers typeMissingNum fieldNoNum (AnnotationDef.mk "fieldnum" 2)
      "int64").1 rfl,
   ((fieldnum_required sampleHelpers typeMissingNum fieldNoNum (AnnotationDef.mk "fieldnum" 2)
      "int64").2.1 rfl (by decide)).1,
   (fieldnum_required sampleHelpers typeMissingNum fieldWithNum (AnnotationDef.mk "fieldnum" 2)
      "int64").2.2 rfl rfl⟩

end WidlGrpc

namespace WidlGrpc

/-- The request type signature the specification describes: the first
parameter's resolved type when the operation is unary (undefined when a
unary operation has no parameter), else the synthesized
`<PascalCase(name)>Request` name. -/
def requestSig (H : Helpers) (o : OperationDefinition) : Except String String :=
  if o.unary then
    match o.parameters.head? with
    | none => .error "TypeError: cannot read properties of undefined"
    | some p => typeSignature p.type
  else .ok (H.pascalCase o.name ++ "Request")

/-- The response type signature the specification describes: the literal
`Empty` when the return type denotes no value, else the resolved return
type. -/
def responseSig (H : Helpers) (o : OperationDefinition) : Except String String :=
  if H.isVoid o.type then .ok "Empty" else typeSignature o.type

/-- Claim C2: an included operation emits exactly
`rpc <PascalCase(name)>(<RequestTypeSig>) returns (<ResponseTypeSig>);`
(after its comment, indented two spaces inside the service block), where
the request signature is the first parameter's resolved type for a unary
operation — never a synthesized name — and `<PascalCase(name)>Request`
otherwise, and the response signature is `Empty` for a void return and the
resolved return type otherwise. -/
theorem rpc_line_emission (H : Helpers) (r : Role) (o : OperationDefinition) (rs vs : String)
    (hin : H.shouldIncludeHandler r = true)
    (hreq : requestSig H o = .ok rs)
    (hres : responseSig H o = .ok vs) :
    visitOperationBefore H r o
      = (H.formatComment "  // " o.description ++ "  rpc " ++ H.pascalCase o.name ++ "("
          ++ rs ++ ") returns (" ++ vs ++ ");\n",
         if o.unary then [] else [convertOperationToType H o], none)
    ∧ (o.unary = true → ∀ p : ParameterDefinition, o.parameters.head? = some p →
        requestSig H o = typeSignature p.type) := by
  constructor
  · have hret : (if H.isVoid o.type then (("Empty" : String), (none : Option String))
        else match typeSignature o.type with
          | .error e => ("", some e)
          | .ok s => (s, none)) = (vs, none) := by
      by_cases hv : H.isVoid o.type
      · simp only [responseSig, hv, if_true] at hres
        simp [hv, Except.ok.inj hres]
      · rw [responseSig, if_neg hv] at hres
        rw [if_neg hv]
        rcases hts : typeSignature o.type with e | s
        · rw [hts] at hres
          exact absurd hres (by simp)
        · rw [hts] at hres
          simp [Except.ok.inj hres]
    cases hu : o.unary with
    | true =>
      rcases hp : o.parameters.head? with _ | p
      · simp [requestSig, hu, hp] at hreq
      · have hts : typeSignature p.type = .ok rs := by
          simpa [requestSig, hu, hp] using hreq
        simp [visitOperationBefore, hin, hu, hp, hts, hret]
    | false =>
      have hrs : rs = H.pascalCase o.name ++ "Request" := by
        simpa [requestSig, hu, eq_comm] using hreq
      simp [visitOperationBefore, hin, hu, hret, hrs]
  · intro hu p hp
    simp [requestSig, hu, hp]

/-- A unary operation on one parameter of named type, used by witnesses. -/
def unaryOp : OperationDefinition :=
  OperationDefinition.mk "get" none
    [ParameterDefinition.mk "id" none (WType.named "string") none []]
    (WType.named "Book") [] true

def sampleRole : Role := Role.mk "Library" none [unaryOp]

/-- Witness for C2: the unary `get(id: string): Book` renders
`rpc get(string) returns (Book);` with the parameter's resolved type,
not a synthesized name. -/
theorem rpc_line_emission_witness :
    visitOperationBefore sampleHelpers sampleRole unaryOp
      = (sampleHelpers.formatComment "  // " none ++ "  rpc "
          ++ sampleHelpers.pascalCase "get" ++ "(" ++ "string" ++ ") returns (" ++ "Book"
          ++ ");\n", if unaryOp.unary then [] else [convertOperationToType sampleHelpers unaryOp],
         none)
    ∧ requestSig sampleHelpers unaryOp
        = typeSignature (WType.named "string") := by
  have h := rpc_line_emission sampleHelpers sampleRole unaryOp "string" "Book" rfl rfl rfl
  exact ⟨h.1, h.2 rfl (ParameterDefinition.mk "id" none (WType.named "string") none []) rfl⟩

/-- The request types pushed by one operation visit: one synthesized type
exactly when the role is included and the operation is non-unary. -/
lemma visitOperationBefore_requests (H : Helpers) (r : Role) (o : OperationDefinition) :
    (visitOperationBefore H r o).2.1
      = if H.shouldIncludeHandler r = true ∧ o.unary = false
          then [convertOperationToType H o] else [] := by
  by_cases hg : H.shouldIncludeHandler r
  · cases hu : o.unary with
    | true =>
      rcases hp : o.parameters.head? with _ | p
      · simp [visitOperationBefore, hg, hu, hp]
      · rcases hts : typeSignature p.type with e | s
        · simp [visitOperationBefore, hg, hu, hp, hts]
        · by_cases hv : H.isVoid o.type
          · simp [visitOperationBefore, hg, hu, hp, hts, hv]
          · rcases hto : typeSignature o.type with e | s2
            · simp [visitOperationBefore, hg, hu, hp, hts, hv, hto]
            · simp [visitOperationBefore, hg, hu, hp, hts, hv, hto]
    | false =>
      by_cases hv : H.isVoid o.type
      · simp [visitOperationBefore, hg, hu, hv]
      · rcases hto : typeSignature o.type with e | s2
        · simp [visitOperationBefore, hg, hu, hv, hto]
        · simp [visitOperationBefore, hg, hu, hv, hto]
  · simp [visitOperationBefore, hg]

/-- A non-unary operation taking exactly one parameter, showing synthesis
is keyed on the `unary` flag rather than the parameter count. -/
def oneParamNonUnaryOp : OperationDefinition :=
  OperationDefinition.mk "save" none
    [ParameterDefinition.mk "book" none (WType.named "Book") none [AnnotationDef.mk "fieldnum" 1]]
    (WType.named "void") [] false

/-- Counterexample to C8 as stated: `save` takes at most one parameter,
yet emission synthesizes and queues a request type for it, because the
code branches on the operation's `unary` flag, not on the parameter
count. -/
theorem request_synthesis_param_count_counterexample :
    oneParamNonUnaryOp.parameters.length ≤ 1
    ∧ (visitOperationBefore sampleHelpers sampleRole oneParamNonUnaryOp).2.1
        = [convertOperationToType sampleHelpers oneParamNonUnaryOp] := by
  constructor
  · decide
  · rfl

/-- Claim C8 (amended): a synthetic request record type is built and
queued exactly for the included operations whose `unary` flag is false;
a unary operation, or any operation of an excluded role, synthesizes
none. -/
theorem request_synthesis_unary_flag (H : Helpers) (r : Role) (o : OperationDefinition) :
    (H.shouldIncludeHandler r = true → o.unary = false →
      (visitOperationBefore H r o).2.1 = [convertOperationToType H o])
    ∧ (o.unary = true → (visitOperationBefore H r o).2.1 = [])
    ∧ (H.shouldIncludeHandler r = false → (visitOperationBefore H r o).2.1 = []) := by
  refine ⟨?_, ?_, ?_⟩
  · intro hg hu
    simp [visitOperationBefore_requests, hg, hu]
  · intro hu
    simp [visitOperationBefore_requests, hu]
  · intro hg
    simp [visitOperationBefore_requests, hg]

/-- Witness for C8 (amended): the one-parameter non-unary `save` queues
its request type; the unary `get` queues none. -/
theorem request_synthesis_unary_flag_witness :
    (visitOperationBefore sampleHelpers sampleRole oneParamNonUnaryOp).2.1
      = [convertOperationToType sampleHelpers oneParamNonUnaryOp]
    ∧ (visitOperationBefore sampleHelpers sampleRole unaryOp).2.1 = [] :=
  ⟨(request_synthesis_unary_flag sampleHelpers sampleRole oneParamNonUnaryOp).1 rfl rfl,
   (request_synthesis_unary_flag sampleHelpers sampleRole unaryOp).2.1 rfl⟩

end WidlGrpc

namespace WidlGrpc

/-- The field a parameter is copied into, component by component. -/
def fieldOfParam (p : ParameterDefinition) : FieldDefinition :=
  FieldDefinition.mk p.name p.description p.type p.dflt p.annotations

/-- For an included role whose operations all emit without error, the
request types accumulate one synthesized type per non-unary operation, in
operation visit order. -/
lemma emitOperations_requests (H : Helpers) (r : Role)
    (hin : H.shouldIncludeHandler r = true) :
    ∀ ops : List OperationDefinition, (emitOperations H r ops).2.2 = none →
      (emitOperations H r ops).2.1
        = (ops.filter (fun op => !op.unary)).map (convertOperationToType H)
  | [], _ => rfl
  | o :: rest, h => by
    rcases hv : visitOperationBefore H r o with ⟨s, reqs, e⟩
    have hreqs := visitOperationBefore_requests H r o
    rw [hv] at hreqs
    cases e with
    | some err =>
      rw [emitOperations, hv] at h
      simp at h
    | none =>
      rw [emitOperations, hv] at h ⊢
      simp only at h ⊢
      have ih := emitOperations_requests H r hin rest h
      cases hu : o.unary with
      | true =>
        simp only [hu, and_false, if_false] at hreqs
        simp [hreqs, ih, List.filter, hu]
      | false =>
        simp only [hin, hu, and_true, if_true, true_and] at hreqs
        simp [hreqs, ih, List.filter, hu]

/-- Claim C1: a non-unary operation synthesizes exactly one request
message named `<PascalCase(name)>Request`, described as
`Request for the <PascalCase(name)> operation.`, whose fields copy the
operation's parameters one-to-one (name, description, type, default,
annotations) in declaration order; within an included error-free role one
such type accumulates per non-unary operation in visit order, and the
accumulated request messages are emitted after all primary sections of the
document. -/
theorem synthesized_request_message (H : Helpers) (r : Role) (o : OperationDefinition)
    (d : Document)
    (hin : H.shouldIncludeHandler r = true) (hnu : o.unary = false)
    (hops : (emitOperations H r r.operations).2.2 = none)
    (hroles : (emitRoles H d.roles).2.2 = none)
    (htypes : (emitTypes H d.types).2 = none)
    (hunions : (emitUnions H d.unions).2 = none) :
    (visitOperationBefore H r o).2.1 = [convertOperationToType H o]
    ∧ (convertOperationToType H o).name = H.pascalCase o.name ++ "Request"
    ∧ (convertOperationToType H o).description
        = some ("Request for the " ++ H.pascalCase o.name ++ " operation.")
    ∧ (convertOperationToType H o).annotations = o.annotations
    ∧ (convertOperationToType H o).fields = o.parameters.map fieldOfParam
    ∧ (∀ p : ParameterDefinition, fieldOfParam p
        = FieldDefinition.mk p.name p.description p.type p.dflt p.annotations)
    ∧ (emitOperations H r r.operations).2.1
        = (r.operations.filter (fun op => !op.unary)).map (convertOperationToType H)
    ∧ emitDocument H d
        = (docHeader d ++ (emitRoles H d.roles).1 ++ (emitTypes H d.types).1
            ++ emitEnums H d.enums ++ (emitUnions H d.unions).1
            ++ (emitTypes H (emitRoles H d.roles).2.1).1,
           (emitTypes H (emitRoles H d.roles).2.1).2) := by
  refine ⟨?_, rfl, rfl, rfl, rfl, fun _ => rfl,
    emitOperations_requests H r hin r.operations hops, ?_⟩
  · simp [visitOperationBefore_requests, hin, hnu]
  · rcases hR : emitRoles H d.roles with ⟨s, reqs, e⟩
    rw [hR] at hroles
    simp only at hroles
    subst hroles
    rcases hT : emitTypes H d.types with ⟨ts, te⟩
    rw [hT] at htypes
    simp only at htypes
    subst htypes
    rcases hU : emitUnions H d.unions with ⟨us, ue⟩
    rw [hU] at hunions
    simp only at hunions
    subst hunions
    simp only [emitDocument, hR, hT, hU, eseq, String.append_assoc]

/-- A two-parameter non-unary operation, its role and a document, for the
C1 witness. -/
def addOp : OperationDefinition :=
  OperationDefinition.mk "add" none
    [ParameterDefinition.mk "x" none (WType.named "i32") none [AnnotationDef.mk "fieldnum" 1],
     ParameterDefinition.mk "y" none (WType.named "i32") none [AnnotationDef.mk "fieldnum" 2]]
    (WType.named "i32") [] false

def addRole : Role := Role.mk "Calculator" none [addOp]

def sampleDoc : Document :=
  Document.mk (NamespaceDefinition.mk "pkg.demo") [addRole] [] [] []

/-- Witness for C1: `add(x: i32, y: i32): i32` synthesizes exactly one
request type copying both parameters in order. -/
theorem synthesized_request_message_witness :
    (visitOperationBefore sampleHelpers addRole addOp).2.1
      = [convertOperationToType sampleHelpers addOp]
    ∧ (convertOperationToType sampleHelpers addOp).name
        = sampleHelpers.pascalCase "add" ++ "Request"
    ∧ (convertOperationToType sampleHelpers addOp).fields
        = addOp.parameters.map fieldOfParam := by
  have h := synthesized_request_message sampleHelpers addRole addOp sampleDoc
    rfl rfl (by decide) (by decide) rfl rfl
  exact ⟨h.1, h.2.1, h.2.2.2.2.1⟩

end WidlGrpc
